import Mathlib

/-!
Verification of the `level` repository's turtle stock pipeline:
signal detection (`search_gold.py`, `search_macd_gold.py`), the SQLite
store (`database.py`), the retry helper (`background_tasks.py`), the
daily-refresh scheduler and the SMA-backtest endpoint (`routers/stock.py`),
and the main-board filter (`utils/main_board_checker.py`).

Prices are modelled as exact rationals (the Python code uses floats /
pandas REAL columns); dates as naturals preserving the chronological
order of the ISO date strings the code compares.
-/

attribute [local semireducible] Rat.mul Rat.inv Rat.add Rat.sub Rat.ofScientific

/-! ## Simple moving averages and the SMA golden-cross detector
(`app/services/search_gold.py`, `calculate_sma` / `detect_golden_cross`) -/

/-- `calculate_sma`: pandas `df['close'].rolling(window=w).mean()` at row `t`:
the mean of the `w` closes ending at `t`, `none` (NaN) while fewer than `w`
rows are available or `t` is out of range. -/
def calculate_sma (closes : List ℚ) (w : ℕ) (t : ℕ) : Option ℚ :=
  if w ≤ t + 1 ∧ t < closes.length then
    some (((closes.drop (t + 1 - w)).take w).sum / (w : ℚ))
  else
    none

/-- Pandas comparison `a > b` where either side may be NaN: NaN compares false. -/
def optGtB : Option ℚ → Option ℚ → Bool
  | some a, some b => decide (b < a)
  | _, _ => false

/-- Pandas comparison `a <= b` where either side may be NaN: NaN compares false. -/
def optLeB : Option ℚ → Option ℚ → Bool
  | some a, some b => decide (a ≤ b)
  | _, _ => false

/-- Pandas `shift(1)`: row `0` becomes NaN, row `t+1` takes row `t`. -/
def shift1 (f : ℕ → Option ℚ) (t : ℕ) : Option ℚ :=
  match t with
  | 0 => none
  | Nat.succ s => f s

/-- The crossover column of `detect_golden_cross`, for arbitrary short and
long windows: `(SMAshort > SMAlong) & (prev SMAshort <= prev SMAlong)`. -/
def crossoverFlag (closes : List ℚ) (ws wl t : ℕ) : Bool :=
  optGtB (calculate_sma closes ws t) (calculate_sma closes wl t) &&
  optLeB (shift1 (calculate_sma closes ws) t) (shift1 (calculate_sma closes wl) t)

/-- `detect_golden_cross`: the SMA5-above-SMA10 upward cross flag at row `t`. -/
def detect_golden_cross (closes : List ℚ) (t : ℕ) : Bool :=
  crossoverFlag closes 5 10 t

/-! ## MACD and the MACD golden-cross detector
(`app/services/search_macd_gold.py`, `calculate_macd` / `detect_macd_golden_cross`) -/

/-- Tail of pandas `ewm(span, adjust=False).mean()`:
`y_t = a * x_t + (1 - a) * y_(t-1)`. -/
def ewmAux (a : ℚ) (prev : ℚ) : List ℚ → List ℚ
  | [] => []
  | x :: xs =>
    let v := a * x + (1 - a) * prev
    v :: ewmAux a v xs

/-- Pandas `ewm(span=span, adjust=False).mean()`: the first output equals the
first input, then the recursive smoothing with `a = 2 / (span + 1)`. -/
def ewm (span : ℕ) : List ℚ → List ℚ
  | [] => []
  | x :: xs => x :: ewmAux ((2 : ℚ) / ((span : ℚ) + 1)) x xs

/-- The MACD line of `calculate_macd`: fast EMA minus slow EMA, rowwise. -/
def macdLine (closes : List ℚ) (fast slow : ℕ) : List ℚ :=
  List.zipWith (fun a b => a - b) (ewm fast closes) (ewm slow closes)

/-- The signal line of `calculate_macd`: EMA of the MACD line. -/
def signalLine (closes : List ℚ) (fast slow sig : ℕ) : List ℚ :=
  ewm sig (macdLine closes fast slow)

/-- The crossover column of `detect_macd_golden_cross`:
`(MACD > Signal) & (prev MACD <= prev Signal)` at row `t`. -/
def macdCrossoverAt (closes : List ℚ) (fast slow sig t : ℕ) : Bool :=
  optGtB ((macdLine closes fast slow).get? t) ((signalLine closes fast slow sig).get? t) &&
  optLeB (shift1 (fun s => (macdLine closes fast slow).get? s) t)
         (shift1 (fun s => (signalLine closes fast slow sig).get? s) t)

/-- `detect_macd_golden_cross` with the default periods 12 / 26 / 9. -/
def detect_macd_golden_cross (closes : List ℚ) (t : ℕ) : Bool :=
  macdCrossoverAt closes 12 26 9 t

/-! ## Per-stock scan of `detect_golden_cross_from_db` /
`detect_macd_golden_cross_from_db` -/

/-- A stored daily bar as the detection code reads it from the database.
Dates are ISO strings totally ordered lexicographically, hence
chronologically; they are modelled as naturals preserving that order. -/
structure Bar where
  date : ℕ
  close : ℚ
  deriving DecidableEq, Inhabited

/-- Pandas `iloc[i]` for a possibly negative `i` on a length-`n` frame:
Python semantics, `none` models the `IndexError`. -/
def pyIloc (n : ℕ) (i : ℤ) : Option ℕ :=
  if i < 0 then
    if 0 ≤ i + n then some (i + n).toNat else none
  else
    if i < n then some i.toNat else none

/-- Outcome of the per-stock loop body of the `*_from_db` detectors. -/
inductive StockScan
  | indexError
  | noEvent
  | event (t : ℕ)
  deriving DecidableEq

/-- The row indices the SMA detector flags for a bar series. -/
def smaCrossIdxs (bars : List Bar) : List ℕ :=
  (List.range bars.length).filter (fun t => detect_golden_cross (bars.map Bar.close) t)

/-- The row indices the MACD detector flags for a bar series. -/
def macdCrossIdxs (bars : List Bar) : List ℕ :=
  (List.range bars.length).filter (fun t => detect_macd_golden_cross (bars.map Bar.close) t)

/-- The part of the loop body the two `*_from_db` detectors share: given the
flagged row indices, take the most recent one, compare its date against
`data['date'].iloc[-detect_days]`, and append an event when the last cross
is recent enough.  `indexError` models the `IndexError` the `iloc` raises. -/
def scanOutcome (bars : List Bar) (detectDays : ℕ) (crossIdxs : List ℕ) : StockScan :=
  match crossIdxs.getLast? with
  | none => StockScan.noEvent
  | some tl =>
    match pyIloc bars.length (-(detectDays : ℤ)) with
    | none => StockScan.indexError
    | some j =>
      if (bars.getD j default).date ≤ (bars.getD tl default).date then
        StockScan.event tl
      else
        StockScan.noEvent

/-- Per-stock loop body of `detect_golden_cross_from_db`. -/
def smaStockEvent (bars : List Bar) (detectDays : ℕ) : StockScan :=
  scanOutcome bars detectDays (smaCrossIdxs bars)

/-- Per-stock loop body of `detect_macd_golden_cross_from_db`. -/
def macdStockEvent (bars : List Bar) (detectDays : ℕ) : StockScan :=
  scanOutcome bars detectDays (macdCrossIdxs bars)

/-! ## The retry helper (`app/services/background_tasks.py`, `retry_on_failure`) -/

/-- The `for attempt in range(max_retries)` loop of `retry_on_failure`.
The operation is modelled as a map from the 0-based attempt index to its
outcome.  The result collects the number of invocations, the list of
`time.sleep` durations in order, and the final outcome; `none` models
falling through a zero-iteration loop (where Python would raise the
uninitialised `last_exception`). -/
def retryLoop {E A : Type} (op : ℕ → Except E A) (delay : ℚ) :
    ℕ → ℕ → ℕ × List ℚ × Option (Except E A)
  | _, 0 => (0, [], none)
  | attempt, r + 1 =>
    match op attempt with
    | Except.ok a => (1, [], some (Except.ok a))
    | Except.error e =>
      if r = 0 then (1, [], some (Except.error e))
      else
        let rest := retryLoop op delay (attempt + 1) r
        (rest.1 + 1, delay * ((attempt + 1 : ℕ) : ℚ) :: rest.2.1, rest.2.2)

/-- `retry_on_failure(func, max_retries, delay)`:
run the loop from attempt 0 with `max_retries` iterations remaining. -/
def retry_on_failure {E A : Type} (op : ℕ → Except E A) (maxRetries : ℕ)
    (delay : ℚ) : ℕ × List ℚ × Option (Except E A) :=
  retryLoop op delay 0 maxRetries

/-! ## The SQLite store (`app/services/database.py`) -/

/-- One input record of `save_stock_daily_data` (`record.get(...)` on the
ingestion dict): the date is present (the schema requires it `NOT NULL`),
the numeric fields and the adjust flag may be missing (`NULL`). -/
structure BarRecord where
  date : ℕ
  open_ : Option ℚ
  high : Option ℚ
  low : Option ℚ
  close : Option ℚ
  volume : Option ℚ
  amount : Option ℚ
  adjustflag : Option String
  deriving DecidableEq

/-- A stored row of the `stock_daily_data` table. -/
structure DailyRow where
  code : String
  date : ℕ
  open_ : Option ℚ
  high : Option ℚ
  low : Option ℚ
  close : Option ℚ
  volume : Option ℚ
  amount : Option ℚ
  adjustflag : Option String
  created_at : ℕ
  updated_at : ℕ
  deriving DecidableEq

/-- The row the `INSERT OR REPLACE` of `save_stock_daily_data` writes. -/
def mkDailyRow (code : String) (now : ℕ) (r : BarRecord) : DailyRow :=
  ⟨code, r.date, r.open_, r.high, r.low, r.close, r.volume, r.amount,
    r.adjustflag, now, now⟩

/-- SQLite `INSERT OR REPLACE` against `UNIQUE(code, date)`: every row with
the same key is deleted, the new row is inserted. -/
def insertOrReplaceDaily (tbl : List DailyRow) (r : DailyRow) : List DailyRow :=
  (tbl.filter fun x => !(x.code = r.code && x.date = r.date)) ++ [r]

/-- `save_stock_daily_data(code, data)`: one `INSERT OR REPLACE` per record
inside a single transaction, every row stamped with the same `now`. -/
def save_stock_daily_data (tbl : List DailyRow) (code : String)
    (data : List BarRecord) (now : ℕ) : List DailyRow :=
  data.foldl (fun t r => insertOrReplaceDaily t (mkDailyRow code now r)) tbl

/-- The stored rows carrying a given `(code, date)` key. -/
def keyRows (tbl : List DailyRow) (c : String) (d : ℕ) : List DailyRow :=
  tbl.filter fun x => x.code = c && x.date = d

/-- The `UNIQUE(code, date)` table invariant: at most one row per key. -/
def dailyKeyUnique (tbl : List DailyRow) : Prop :=
  ∀ c d, (keyRows tbl c d).length ≤ 1

/-- A stored row of the `index_stocks` membership table. -/
structure IndexRow where
  index_type : String
  code : String
  name : Option String
  update_date : Option String
  created_at : ℕ
  updated_at : ℕ
  deriving DecidableEq

/-- First field name of the candidate list present in `fields`, as an index
(`save_index_stocks` probing for the name and date columns). -/
def firstFieldIdx (fields : List String) : List String → Option ℕ
  | [] => none
  | n :: ns =>
    match fields.findIdx? (fun f => f = n) with
    | some i => some i
    | none => firstFieldIdx fields ns

/-- `stock[i] if i is not None and i < len(stock) else None`. -/
def extractField (stock : List String) : Option ℕ → Option String
  | none => none
  | some i => stock.get? i

/-- SQLite `INSERT OR REPLACE` against `UNIQUE(index_type, code)`. -/
def insertOrReplaceIndex (tbl : List IndexRow) (r : IndexRow) : List IndexRow :=
  (tbl.filter fun x => !(x.index_type = r.index_type && x.code = r.code)) ++ [r]

/-- Loop body of `save_index_stocks`: skip a record with no or an empty
code, otherwise upsert the extracted row under the given index tag. -/
def indexStep (index_type : String) (codeIdx : ℕ) (nameIdx dateIdx : Option ℕ)
    (now : ℕ) (t : List IndexRow) (stock : List String) : List IndexRow :=
  match stock.get? codeIdx with
  | none => t
  | some code =>
    if code = "" then t
    else insertOrReplaceIndex t
      ⟨index_type, code, extractField stock nameIdx, extractField stock dateIdx,
        now, now⟩

/-- `save_index_stocks(index_type, stocks, fields)`: delete every row of the
tag, resolve the column indices from `fields`, then insert the new set. -/
def save_index_stocks (tbl : List IndexRow) (index_type : String)
    (stocks : List (List String)) (fields : List String) (now : ℕ) :
    List IndexRow :=
  let codeIdx := (fields.findIdx? (fun f => f = "code")).getD 0
  let nameIdx := firstFieldIdx fields ["code_name", "name", "stock_name"]
  let dateIdx := firstFieldIdx fields ["updateDate", "date", "update_date"]
  stocks.foldl (indexStep index_type codeIdx nameIdx dateIdx now)
    (tbl.filter fun r => !(r.index_type = index_type))

/-- The `WHERE` clause of the four query branches of
`get_stock_daily_data_from_db`, selected by which bounds are given. -/
def inDateBounds (startD endD : Option ℕ) (d : ℕ) : Bool :=
  match startD, endD with
  | some s, some e => decide (s ≤ d) && decide (d ≤ e)
  | some s, none => decide (s ≤ d)
  | none, some e => decide (d ≤ e)
  | none, none => true

/-- `get_stock_daily_data_from_db(code, start_date, end_date)`:
`SELECT ... WHERE code = ? [AND date bounds] ORDER BY date ASC`. -/
def get_stock_daily_data_from_db (tbl : List DailyRow) (code : String)
    (startD endD : Option ℕ) : List DailyRow :=
  List.insertionSort (fun a b => a.date ≤ b.date)
    (tbl.filter fun r => r.code = code && inDateBounds startD endD r.date)

instance : IsTotal DailyRow (fun a b => a.date ≤ b.date) :=
  ⟨fun a b => Nat.le_total a.date b.date⟩

instance : IsTrans DailyRow (fun a b => a.date ≤ b.date) :=
  ⟨fun _ _ _ => Nat.le_trans⟩

/-! ## The SMA backtest endpoint (`app/routers/stock.py`, `sma_backtest`) -/

/-- The observable actions of the `sma_backtest` handler, in program order. -/
inductive HandlerEv
  | providerFetch
  | runBacktest
  deriving DecidableEq

/-- The handler's responses: the 404s for a failed or empty provider fetch,
the 400 for fewer than 10 rows, the 400 naming `sma1` and `sma2` when
`sma1 >= sma2`, and the 200 carrying the resolved parameters. -/
inductive HandlerResp
  | fetchError
  | noData
  | insufficientData (got : ℕ)
  | paramError (sma1 sma2 : ℕ)
  | ok (sma1 sma2 holdDays : ℕ)
  deriving DecidableEq

/-- `sma_backtest`: the provider fetch runs first; then the presence and
10-row sufficiency checks on the fetched frame; then the defaults are
resolved and `sma1 >= sma2` is rejected; only then the backtest runs.
`fetched` is the outcome of the provider call (closes of the frame); the
first component lists the events performed, in order. -/
def sma_backtest (sma1? sma2? holdDays? : Option ℕ)
    (fetched : Except Unit (List ℚ)) : List HandlerEv × HandlerResp :=
  match fetched with
  | Except.error _ => ([HandlerEv.providerFetch], HandlerResp.fetchError)
  | Except.ok data =>
    if data.length = 0 then
      ([HandlerEv.providerFetch], HandlerResp.noData)
    else if data.length < 10 then
      ([HandlerEv.providerFetch], HandlerResp.insufficientData data.length)
    else
      let sma1 := sma1?.getD 5
      let sma2 := sma2?.getD 10
      let holdDays := holdDays?.getD 21
      if sma2 ≤ sma1 then
        ([HandlerEv.providerFetch], HandlerResp.paramError sma1 sma2)
      else
        ([HandlerEv.providerFetch, HandlerEv.runBacktest],
          HandlerResp.ok sma1 sma2 holdDays)

/-! ## The backtest core -/

/-- Modelled from the spec: result record of the backtest simulator.  The
backtest core `sma.runstrat` / `macd.runstrat` (`app/services/sma.py` and
`app/services/macd.py`) is not present in the repository sources — only its
call sites are — so the simulator is modelled from §4.6 of the spec. -/
structure BacktestStats where
  avgProfit : ℚ
  avgProfitRatio : ℚ
  winProbability : ℚ
  tradeCount : ℕ
  deriving DecidableEq

/-- Modelled from the spec: the trade table of the missing backtest core.
Each entry-signal row found in the bar series opens a position at that
row's close and exits `holdDays` rows later, or at the last available row
when the series ends first; such a clamped trade is still counted. -/
def backtestTrades (closes : List ℚ) (entries : List ℕ) (holdDays : ℕ) :
    List (ℚ × ℚ) :=
  entries.filterMap (fun t =>
    match closes.get? t with
    | none => none
    | some entry =>
      (closes.get? (min (t + holdDays) (closes.length - 1))).map
        (fun ex => (entry, ex)))

/-- Modelled from the spec: the aggregate of the missing backtest core.
Per-trade profit is `exitClose - entryClose`, the ratio divides by the
entry close; the averages are plain means, `winProbability` the fraction
of trades with positive profit; zero trades give the insufficient-data
condition `none`, never a zero value. -/
def runBacktest (closes : List ℚ) (entries : List ℕ) (holdDays : ℕ) :
    Option BacktestStats :=
  let trades := backtestTrades closes entries holdDays
  if trades.length = 0 then none
  else some
    { avgProfit := (trades.map (fun p => p.2 - p.1)).sum / (trades.length : ℚ)
      avgProfitRatio :=
        (trades.map (fun p => (p.2 - p.1) / p.1)).sum / (trades.length : ℚ)
      winProbability :=
        ((trades.filter (fun p => p.1 < p.2)).length : ℚ) / (trades.length : ℚ)
      tradeCount := trades.length }

/-! ## The daily refresh loop (`app/routers/stock.py`, `daily_refresh_task`) -/

/-- Outcome of an `asyncio.sleep` await point: it either completes or the
task is cancelled there (the sleep raises `CancelledError`). -/
inductive SleepOut
  | completed
  | cancelled
  deriving DecidableEq

/-- Outcome of an awaited fetch: success, an ordinary exception, or a
cancellation raised at the await point. -/
inductive FetchOut
  | ok
  | exc
  | cancelled
  deriving DecidableEq

/-- Environment of one iteration of the `while True` loop: what happens at
the sleep-until-20:00, at `fetch_all_index_stocks`, at
`refresh_daily_data`, and at the one-hour cool-down sleep of the
`except Exception` handler. -/
structure IterEnv where
  sleepTrigger : SleepOut
  membershipFetch : FetchOut
  dataRefresh : FetchOut
  coolDown : SleepOut
  deriving DecidableEq

/-- A fetch the loop initiates. -/
inductive FetchEv
  | membership
  | bars
  deriving DecidableEq

/-- How one iteration ends: fall through to the next iteration, leave the
loop through the `except asyncio.CancelledError: break` handler, or let an
exception escape the loop body (only a cancellation arriving during the
cool-down sleep inside the `except Exception` handler is uncaught). -/
inductive IterEnd
  | nextIter
  | brk
  | raised
  deriving DecidableEq

/-- One iteration of `daily_refresh_task`: the fetches initiated, in order,
and how the iteration ends. -/
def runIter (env : IterEnv) : List FetchEv × IterEnd :=
  match env.sleepTrigger with
  | SleepOut.cancelled => ([], IterEnd.brk)
  | SleepOut.completed =>
    match env.membershipFetch with
    | FetchOut.cancelled => ([FetchEv.membership], IterEnd.brk)
    | FetchOut.exc =>
      match env.coolDown with
      | SleepOut.completed => ([FetchEv.membership], IterEnd.nextIter)
      | SleepOut.cancelled => ([FetchEv.membership], IterEnd.raised)
    | FetchOut.ok =>
      match env.dataRefresh with
      | FetchOut.cancelled => ([FetchEv.membership, FetchEv.bars], IterEnd.brk)
      | FetchOut.exc =>
        match env.coolDown with
        | SleepOut.completed =>
          ([FetchEv.membership, FetchEv.bars], IterEnd.nextIter)
        | SleepOut.cancelled =>
          ([FetchEv.membership, FetchEv.bars], IterEnd.raised)
      | FetchOut.ok => ([FetchEv.membership, FetchEv.bars], IterEnd.nextIter)

/-- Final state of the loop over a finite trace of iteration environments:
`running` when the trace is exhausted with the loop still going. -/
inductive LoopEnd
  | exited (e : IterEnd)
  | running
  deriving DecidableEq

/-- `daily_refresh_task` over a trace of iteration environments: all fetches
initiated, in order, and how the loop ended. -/
def daily_refresh_task : List IterEnv → List FetchEv × LoopEnd
  | [] => ([], LoopEnd.running)
  | env :: rest =>
    match runIter env with
    | (evs, IterEnd.brk) => (evs, LoopEnd.exited IterEnd.brk)
    | (evs, IterEnd.raised) => (evs, LoopEnd.exited IterEnd.raised)
    | (evs, IterEnd.nextIter) =>
      let r := daily_refresh_task rest
      (evs ++ r.1, r.2)

/-! ## The main-board filter (`app/utils/main_board_checker.py`) and the
backtest stage of `search_macd_gold.do_search` -/

/-- Python `str.split(sep)` for a one-character separator, on char lists. -/
def pySplitAux (c : Char) : List Char → List Char → List (List Char)
  | [], acc => [acc.reverse]
  | x :: xs, acc =>
    if x = c then acc.reverse :: pySplitAux c xs []
    else pySplitAux c xs (x :: acc)

/-- `code.split(".")` as a list of char lists. -/
def pySplitDot (code : String) : List (List Char) :=
  pySplitAux '.' code.toList []

/-- `stock_board`: dispatch on the prefix of `code.split(".")[1]`; `none`
models the `IndexError` on a code without a dot. -/
def stock_board (code : String) : Option String :=
  match (pySplitDot code).get? 1 with
  | none => none
  | some c =>
    if "688".toList.isPrefixOf c || "689".toList.isPrefixOf c then
      some "科创板"
    else if "300".toList.isPrefixOf c then some "创业板"
    else if "600".toList.isPrefixOf c || "601".toList.isPrefixOf c ||
        "603".toList.isPrefixOf c || "605".toList.isPrefixOf c then
      some "沪市主板"
    else if "000".toList.isPrefixOf c || "001".toList.isPrefixOf c ||
        "002".toList.isPrefixOf c then
      some "深市主板"
    else some "未知"

/-- `is_main_board`: the board is a Shanghai or Shenzhen main board. -/
def is_main_board (code : String) : Option Bool :=
  (stock_board code).map (fun b => b = "沪市主板" || b = "深市主板")

/-- Loop body of the backtest stage of `search_macd_gold.do_search` for one
flagged instrument `(code, name)`: a non-main-board code is skipped before
any data read or backtest; otherwise the code's bars are read, skipped if
empty, backtested with `macd.runstrat` (an external parameter here), and
the tuple is kept when `avg_profit_ratio >= 0.02` and `win_prob >= 0.5`.
`none` models the `IndexError` `is_main_board` raises on a dotless code. -/
def macdBacktestStep (strat : List ℚ → ℚ × ℚ × ℚ) (getData : String → List ℚ)
    (acc : List (String × String × ℚ × ℚ × ℚ)) (stock : String × String) :
    Option (List (String × String × ℚ × ℚ × ℚ)) :=
  match is_main_board stock.1 with
  | none => none
  | some false => some acc
  | some true =>
    let data := getData stock.1
    if data.length = 0 then some acc
    else
      let r := strat data
      if 2 / 100 ≤ r.2.1 ∧ 1 / 2 ≤ r.2.2 then
        some (acc ++ [(stock.1, stock.2, r)])
      else some acc

/-- The whole backtest stage of `search_macd_gold.do_search` over the
flagged list. -/
def macdBacktestStage (strat : List ℚ → ℚ × ℚ × ℚ)
    (getData : String → List ℚ) (flagged : List (String × String)) :
    Option (List (String × String × ℚ × ℚ × ℚ)) :=
  flagged.foldlM (macdBacktestStep strat getData) []

/-- Loop body of the backtest stage of `search_gold.do_search` for one
flagged instrument: identical to the MACD one except that no main-board
check is performed. -/
def smaBacktestStep (strat : List ℚ → ℚ × ℚ × ℚ) (getData : String → List ℚ)
    (acc : List (String × String × ℚ × ℚ × ℚ)) (stock : String × String) :
    List (String × String × ℚ × ℚ × ℚ) :=
  let data := getData stock.1
  if data.length = 0 then acc
  else
    let r := strat data
    if 2 / 100 ≤ r.2.1 ∧ 1 / 2 ≤ r.2.2 then acc ++ [(stock.1, stock.2, r)]
    else acc

/-- C1: for every series, pair of windows and day `t` with at least one prior
row, the detector flags a crossover at `t` iff both moving averages are
defined at `t` and at `t-1`, the short MA strictly exceeds the long MA at
`t`, and the short MA was at or below the long MA at `t-1`; in particular a
day where either MA is undefined is never flagged. -/
theorem golden_cross_iff (closes : List ℚ) (ws wl t : ℕ) (ht : 1 ≤ t) :
    crossoverFlag closes ws wl t = true ↔
      ∃ a b c d, calculate_sma closes ws t = some a ∧
        calculate_sma closes wl t = some b ∧
        calculate_sma closes ws (t - 1) = some c ∧
        calculate_sma closes wl (t - 1) = some d ∧
        b < a ∧ c ≤ d := by
  obtain ⟨s, rfl⟩ : ∃ s, t = s + 1 := ⟨t - 1, (Nat.succ_pred_eq_of_pos ht).symm⟩
  simp only [crossoverFlag, shift1, Nat.add_sub_cancel]
  constructor
  · intro h
    rw [Bool.and_eq_true] at h
    obtain ⟨h1, h2⟩ := h
    cases hws : calculate_sma closes ws (s + 1) with
    | none => rw [hws] at h1; cases h1
    | some a =>
      cases hwl : calculate_sma closes wl (s + 1) with
      | none => rw [hws, hwl] at h1; cases h1
      | some b =>
        cases hpws : calculate_sma closes ws s with
        | none => rw [hpws] at h2; cases h2
        | some c =>
          cases hpwl : calculate_sma closes wl s with
          | none => rw [hpws, hpwl] at h2; cases h2
          | some d =>
            rw [hws, hwl] at h1
            rw [hpws, hpwl] at h2
            exact ⟨a, b, c, d, rfl, rfl, rfl, rfl, of_decide_eq_true h1,
              of_decide_eq_true h2⟩
  · rintro ⟨a, b, c, d, h1, h2, h3, h4, hba, hcd⟩
    rw [h1, h2, h3, h4]
    simp [optGtB, optLeB, hba, hcd]

/-- Closed instance of `golden_cross_iff` on the spec's synthetic series
`[10,10,10,9,8,12,13,14]` with windows 2 and 3, at the flagged row 5. -/
theorem golden_cross_iff_witness :
    crossoverFlag [10, 10, 10, 9, 8, 12, 13, 14] 2 3 5 = true ↔
      ∃ a b c d, calculate_sma [10, 10, 10, 9, 8, 12, 13, 14] 2 5 = some a ∧
        calculate_sma [10, 10, 10, 9, 8, 12, 13, 14] 3 5 = some b ∧
        calculate_sma [10, 10, 10, 9, 8, 12, 13, 14] 2 (5 - 1) = some c ∧
        calculate_sma [10, 10, 10, 9, 8, 12, 13, 14] 3 (5 - 1) = some d ∧
        b < a ∧ c ≤ d :=
  golden_cross_iff [10, 10, 10, 9, 8, 12, 13, 14] 2 3 5 (by decide)

theorem optGtB_none_right (x : Option ℚ) : optGtB x none = false := by
  cases x <;> rfl

theorem calculate_sma_none_of_short (closes : List ℚ) (w t : ℕ)
    (h : closes.length < w) : calculate_sma closes w t = none := by
  unfold calculate_sma
  rw [if_neg]
  rintro ⟨h1, h2⟩
  omega

theorem crossoverFlag_false_of_short (closes : List ℚ) (ws wl t : ℕ)
    (h : closes.length < wl) : crossoverFlag closes ws wl t = false := by
  unfold crossoverFlag
  rw [calculate_sma_none_of_short closes wl t h, optGtB_none_right,
    Bool.false_and]

theorem smaCrossIdxs_nil (bars : List Bar) (h : bars.length < 10) :
    smaCrossIdxs bars = [] := by
  unfold smaCrossIdxs
  rw [List.filter_eq_nil_iff]
  intro t ht
  simp only [detect_golden_cross]
  rw [crossoverFlag_false_of_short]
  · simp
  · simpa using h

/-- C2 (amended): the SMA-variant scan of a series with fewer rows than the
long window (10) yields no crossover event and no error, for any lookback.
The MACD-variant scan, however, can flag crossovers on a series shorter than
the slow window, and whenever it flags one on a series shorter than the
lookback, the `iloc[-detect_days]` threshold lookup is an out-of-range
access that raises. -/
theorem insufficient_rows_scan :
    (∀ (bars : List Bar) (detectDays : ℕ), bars.length < 10 →
      smaStockEvent bars detectDays = StockScan.noEvent) ∧
    (∀ (bars : List Bar) (detectDays : ℕ), macdCrossIdxs bars ≠ [] →
      bars.length < detectDays →
      macdStockEvent bars detectDays = StockScan.indexError) := by
  constructor
  · intro bars d h
    unfold smaStockEvent scanOutcome
    rw [smaCrossIdxs_nil bars h]
    rfl
  · intro bars d hne hlt
    unfold macdStockEvent scanOutcome
    cases hl : (macdCrossIdxs bars).getLast? with
    | none => exact absurd (List.getLast?_eq_none_iff.mp hl) hne
    | some tl =>
      have hpy : pyIloc bars.length (-(d : ℤ)) = none := by
        unfold pyIloc
        rw [if_pos (by omega), if_neg (by omega)]
      rw [hpy]

/-- Closed instance of `insufficient_rows_scan`: a one-row series yields no
SMA event, and the two-row series `[1, 2]` makes the MACD scan raise with
the production lookback 7. -/
theorem insufficient_rows_scan_witness :
    smaStockEvent [Bar.mk 0 1] 3 = StockScan.noEvent ∧
    macdStockEvent [Bar.mk 0 1, Bar.mk 1 2] 7 = StockScan.indexError :=
  ⟨insufficient_rows_scan.1 [Bar.mk 0 1] 3 (by decide),
   insufficient_rows_scan.2 [Bar.mk 0 1, Bar.mk 1 2] 7 (by decide) (by decide)⟩

/-- C2, counterexample: the claim fails on the MACD variant.  The two-row
series with closes `[1, 2]` has fewer rows than the slow window 26, yet the
MACD detector flags a crossover on it, and the scan with the production
lookback 7 performs an out-of-range `iloc` access instead of producing
no event and no error. -/
theorem macd_short_series_raises :
    ([Bar.mk 0 1, Bar.mk 1 2].length < 26) ∧
    detect_macd_golden_cross [1, 2] 1 = true ∧
    macdStockEvent [Bar.mk 0 1, Bar.mk 1 2] 7 = StockScan.indexError := by
  refine ⟨by decide, by decide, by decide⟩

theorem retryLoop_fail {E A : Type} (op : ℕ → Except E A) (delay : ℚ)
    (e : ℕ → E) (hop : ∀ n, op n = Except.error (e n)) :
    ∀ r attempt, 1 ≤ r →
      retryLoop op delay attempt r =
        (r, (List.range (r - 1)).map (fun i => delay * ((attempt + i + 1 : ℕ) : ℚ)),
          some (Except.error (e (attempt + r - 1)))) := by
  intro r
  induction r with
  | zero => intro attempt h; omega
  | succ n ih =>
    intro attempt _
    cases n with
    | zero =>
      simp [retryLoop, hop attempt]
    | succ m =>
      rw [retryLoop]
      rw [hop attempt]
      simp only [Nat.succ_ne_zero, if_neg, ih (attempt + 1) (Nat.succ_le_succ (Nat.zero_le m))]
      refine Prod.ext rfl (Prod.ext ?_ ?_)
      · show delay * ((attempt + 1 : ℕ) : ℚ) ::
            (List.range (m + 1 - 1)).map (fun i => delay * ((attempt + 1 + i + 1 : ℕ) : ℚ)) =
          (List.range (m + 2 - 1)).map (fun i => delay * ((attempt + i + 1 : ℕ) : ℚ))
        have h2 : m + 2 - 1 = (m + 1 - 1) + 1 := rfl
        rw [h2, List.range_succ_eq_map, List.map_cons, List.map_map]
        refine congrArg₂ _ (by norm_num) ?_
        refine List.map_congr_left ?_
        intro i _
        show delay * ((attempt + 1 + i + 1 : ℕ) : ℚ) = delay * ((attempt + (i + 1) + 1 : ℕ) : ℚ)
        congr 2
        omega
      · show some (Except.error (e (attempt + 1 + (m + 1) - 1))) =
          some (Except.error (e (attempt + (m + 2) - 1)))
        have h3 : attempt + 1 + (m + 1) - 1 = attempt + (m + 2) - 1 := by omega
        rw [h3]

/-- C3: an operation failing on every invocation is invoked exactly
`maxRetries` times; a sleep of `delay * attemptNumber` (linear backoff)
follows each failed attempt except the last; and the error of the final
attempt is re-raised to the caller. -/
theorem retry_exhaustion {E A : Type} (op : ℕ → Except E A) (delay : ℚ)
    (e : ℕ → E) (hop : ∀ n, op n = Except.error (e n)) (m : ℕ) (hm : 1 ≤ m) :
    retry_on_failure op m delay =
      (m, (List.range (m - 1)).map (fun i => delay * ((i + 1 : ℕ) : ℚ)),
        some (Except.error (e (m - 1)))) := by
  unfold retry_on_failure
  rw [retryLoop_fail op delay e hop m 0 hm]
  norm_num

/-- Closed instance of `retry_exhaustion` with the default `maxAttempts = 3`
and `baseDelay = 2` of the source: three invocations, sleeps `[2, 4]`, and
the third attempt's error propagated. -/
theorem retry_exhaustion_witness :
    retry_on_failure (fun n => (Except.error n : Except ℕ Unit)) 3 2 =
      (3, [2, 4], some (Except.error 2)) :=
  (retry_exhaustion (fun n => (Except.error n : Except ℕ Unit)) 2 (fun n => n)
    (fun _ => rfl) 3 (by decide)).trans (by norm_num [List.range_succ])

theorem length_filter_and_le {α : Type} (p q : α → Bool) (l : List α) :
    (List.filter (fun a => p a && q a) l).length ≤ (List.filter p l).length := by
  induction l with
  | nil => simp
  | cons x xs ih =>
    cases hp : p x
    · simp [List.filter_cons, hp, ih]
    · cases hq : q x
      · simp [List.filter_cons, hp, hq]
        omega
      · simp [List.filter_cons, hp, hq]
        omega

theorem keyRows_upsert_self (tbl : List DailyRow) (r : DailyRow) :
    keyRows (insertOrReplaceDaily tbl r) r.code r.date = [r] := by
  unfold keyRows insertOrReplaceDaily
  rw [List.filter_append, List.filter_filter]
  have h1 : List.filter
      (fun x : DailyRow => (decide (x.code = r.code) && decide (x.date = r.date)) &&
        !(decide (x.code = r.code) && decide (x.date = r.date))) tbl = [] := by
    rw [List.filter_eq_nil_iff]
    intro x _
    cases decide (x.code = r.code) && decide (x.date = r.date) <;> simp
  rw [h1, List.nil_append]
  simp

theorem dailyKeyUnique_upsert (tbl : List DailyRow) (r : DailyRow)
    (h : dailyKeyUnique tbl) : dailyKeyUnique (insertOrReplaceDaily tbl r) := by
  intro c d
  by_cases hk : c = r.code ∧ d = r.date
  · obtain ⟨rfl, rfl⟩ := hk
    rw [keyRows_upsert_self]
    simp
  · unfold keyRows insertOrReplaceDaily
    rw [List.filter_append, List.filter_filter]
    have hr : (decide (r.code = c) && decide (r.date = d)) = false := by
      by_contra hcon
      rw [Bool.not_eq_false, Bool.and_eq_true, decide_eq_true_eq,
        decide_eq_true_eq] at hcon
      exact hk ⟨hcon.1.symm, hcon.2.symm⟩
    have h2 : List.filter (fun x : DailyRow => decide (x.code = c) && decide (x.date = d))
        [r] = [] := by
      simp only [List.filter]
      rw [hr]
    rw [h2, List.append_nil]
    calc (List.filter (fun x : DailyRow =>
          (decide (x.code = c) && decide (x.date = d)) &&
            !(decide (x.code = r.code) && decide (x.date = r.date))) tbl).length
        ≤ (List.filter (fun x : DailyRow =>
            decide (x.code = c) && decide (x.date = d)) tbl).length :=
          length_filter_and_le _ _ tbl
      _ ≤ 1 := h c d

/-- C4: upserting daily bars is idempotent and last-writer-wins: on a table
satisfying the `(code, date)` uniqueness invariant, saving a bar for a key
and then saving another bar for the same key leaves exactly one stored row
for that key, carrying the second record's values, and the invariant (at
most one row per key) still holds for every key. -/
theorem upsert_last_writer_wins (tbl : List DailyRow) (c : String)
    (r1 r2 : BarRecord) (now1 now2 : ℕ) (hd : r1.date = r2.date)
    (hu : dailyKeyUnique tbl) :
    keyRows (save_stock_daily_data (save_stock_daily_data tbl c [r1] now1)
        c [r2] now2) c r2.date = [mkDailyRow c now2 r2] ∧
    dailyKeyUnique (save_stock_daily_data (save_stock_daily_data tbl c [r1] now1)
        c [r2] now2) := by
  constructor
  · show keyRows (insertOrReplaceDaily _ (mkDailyRow c now2 r2)) c r2.date = _
    exact keyRows_upsert_self _ (mkDailyRow c now2 r2)
  · show dailyKeyUnique (insertOrReplaceDaily (insertOrReplaceDaily tbl
      (mkDailyRow c now1 r1)) (mkDailyRow c now2 r2))
    exact dailyKeyUnique_upsert _ _ (dailyKeyUnique_upsert _ _ hu)

/-- Closed instance of `upsert_last_writer_wins`: two bars for key
`("sh.600000", 1)` with different closes; the stored row carries the second
close and the key count is at most one everywhere. -/
theorem upsert_last_writer_wins_witness :
    keyRows (save_stock_daily_data (save_stock_daily_data [] "sh.600000"
        [⟨1, some 1, none, none, some 10, none, none, none⟩] 5) "sh.600000"
        [⟨1, some 2, none, none, some 20, none, none, none⟩] 6) "sh.600000" 1 =
      [mkDailyRow "sh.600000" 6 ⟨1, some 2, none, none, some 20, none, none, none⟩] ∧
    dailyKeyUnique (save_stock_daily_data (save_stock_daily_data [] "sh.600000"
        [⟨1, some 1, none, none, some 10, none, none, none⟩] 5) "sh.600000"
        [⟨1, some 2, none, none, some 20, none, none, none⟩] 6) :=
  upsert_last_writer_wins [] "sh.600000"
    ⟨1, some 1, none, none, some 10, none, none, none⟩
    ⟨1, some 2, none, none, some 20, none, none, none⟩ 5 6 rfl
    (fun c d => by simp [keyRows])

theorem filter_tag_insertOrReplaceIndex (tag : String) (t : List IndexRow)
    (r : IndexRow) (hr : r.index_type = tag) :
    List.filter (fun x => decide (x.index_type = tag)) (insertOrReplaceIndex t r) =
      insertOrReplaceIndex (t.filter fun x => decide (x.index_type = tag)) r := by
  unfold insertOrReplaceIndex
  rw [List.filter_append, List.filter_filter, List.filter_filter]
  congr 1
  · apply List.filter_congr
    intro x _
    cases decide (x.index_type = tag) <;>
      cases decide (x.index_type = r.index_type) && decide (x.code = r.code) <;> rfl
  · simp [hr]

theorem filter_other_insertOrReplaceIndex (tag2 : String) (t : List IndexRow)
    (r : IndexRow) (hr : r.index_type ≠ tag2) :
    List.filter (fun x => decide (x.index_type = tag2)) (insertOrReplaceIndex t r) =
      t.filter fun x => decide (x.index_type = tag2) := by
  unfold insertOrReplaceIndex
  rw [List.filter_append, List.filter_filter]
  have h1 : List.filter (fun x : IndexRow => decide (x.index_type = tag2)) [r] = [] := by
    simp only [List.filter]
    rw [decide_eq_false hr]
  rw [h1, List.append_nil]
  apply List.filter_congr
  intro x _
  by_cases hx : x.index_type = tag2
  · have hxr : decide (x.index_type = r.index_type) = false :=
      decide_eq_false (fun hh => hr (hh ▸ hx))
    simp [hx, hxr]
    exact Or.inl (fun hh => hr hh.symm)
  · simp [hx]

theorem indexStep_none (tag : String) (codeIdx : ℕ) (nameIdx dateIdx : Option ℕ)
    (now : ℕ) (acc : List IndexRow) (s : List String)
    (hs : s.get? codeIdx = none) :
    indexStep tag codeIdx nameIdx dateIdx now acc s = acc := by
  unfold indexStep
  rw [hs]

theorem indexStep_empty (tag : String) (codeIdx : ℕ) (nameIdx dateIdx : Option ℕ)
    (now : ℕ) (acc : List IndexRow) (s : List String) (code : String)
    (hs : s.get? codeIdx = some code) (hc : code = "") :
    indexStep tag codeIdx nameIdx dateIdx now acc s = acc := by
  unfold indexStep
  rw [hs]
  subst hc
  simp

theorem indexStep_some (tag : String) (codeIdx : ℕ) (nameIdx dateIdx : Option ℕ)
    (now : ℕ) (acc : List IndexRow) (s : List String) (code : String)
    (hs : s.get? codeIdx = some code) (hc : code ≠ "") :
    indexStep tag codeIdx nameIdx dateIdx now acc s =
      insertOrReplaceIndex acc
        ⟨tag, code, extractField s nameIdx, extractField s dateIdx, now, now⟩ := by
  unfold indexStep
  rw [hs]
  exact if_neg hc

theorem foldl_indexStep_filter_tag (tag : String) (codeIdx : ℕ)
    (nameIdx dateIdx : Option ℕ) (now : ℕ) (stocks : List (List String)) :
    ∀ acc : List IndexRow,
      List.filter (fun x => decide (x.index_type = tag))
          (stocks.foldl (indexStep tag codeIdx nameIdx dateIdx now) acc) =
        stocks.foldl (indexStep tag codeIdx nameIdx dateIdx now)
          (acc.filter fun x => decide (x.index_type = tag)) := by
  induction stocks with
  | nil => intro acc; rfl
  | cons s ss ih =>
    intro acc
    rw [List.foldl_cons, List.foldl_cons, ih]
    congr 1
    cases hs : s.get? codeIdx with
    | none => rw [indexStep_none _ _ _ _ _ _ _ hs, indexStep_none _ _ _ _ _ _ _ hs]
    | some code =>
      by_cases hc : code = ""
      · rw [indexStep_empty _ _ _ _ _ _ _ _ hs hc,
          indexStep_empty _ _ _ _ _ _ _ _ hs hc]
      · rw [indexStep_some _ _ _ _ _ _ _ _ hs hc,
          indexStep_some _ _ _ _ _ _ _ _ hs hc]
        exact filter_tag_insertOrReplaceIndex tag acc _ rfl

theorem foldl_indexStep_filter_other (tag tag2 : String) (hne : tag ≠ tag2)
    (codeIdx : ℕ) (nameIdx dateIdx : Option ℕ) (now : ℕ)
    (stocks : List (List String)) :
    ∀ acc : List IndexRow,
      List.filter (fun x => decide (x.index_type = tag2))
          (stocks.foldl (indexStep tag codeIdx nameIdx dateIdx now) acc) =
        acc.filter fun x => decide (x.index_type = tag2) := by
  induction stocks with
  | nil => intro acc; rfl
  | cons s ss ih =>
    intro acc
    rw [List.foldl_cons, ih]
    cases hs : s.get? codeIdx with
    | none => rw [indexStep_none _ _ _ _ _ _ _ hs]
    | some code =>
      by_cases hc : code = ""
      · rw [indexStep_empty _ _ _ _ _ _ _ _ hs hc]
      · rw [indexStep_some _ _ _ _ _ _ _ _ hs hc]
        exact filter_other_insertOrReplaceIndex tag2 acc _ hne

theorem filter_tag_clear (tag : String) (l : List IndexRow) :
    List.filter (fun x => decide (x.index_type = tag))
        (l.filter fun x => !(decide (x.index_type = tag))) = [] := by
  rw [List.filter_filter, List.filter_eq_nil_iff]
  intro x _
  cases decide (x.index_type = tag) <;> simp

theorem filter_other_clear (tag tag2 : String) (hne : tag2 ≠ tag)
    (l : List IndexRow) :
    List.filter (fun x => decide (x.index_type = tag2))
        (l.filter fun x => !(decide (x.index_type = tag))) =
      l.filter fun x => decide (x.index_type = tag2) := by
  rw [List.filter_filter]
  apply List.filter_congr
  intro x _
  by_cases hx : x.index_type = tag2
  · have hxt : decide (x.index_type = tag) = false :=
      decide_eq_false (fun hh => hne (hx ▸ hh))
    simp [hx, hxt, hne]
  · simp [hx]

/-- C5: `save_index_stocks` is a full replace: after two successive calls
for the same index tag with instrument sets `s1` then `s2`, the stored rows
of that tag are exactly the rows a fresh insertion of `s2` would produce —
nothing of `s1` is left — and the rows of every other index tag are exactly
those of the original table. -/
theorem membership_full_replace (tbl : List IndexRow) (tag : String)
    (s1 s2 : List (List String)) (f1 f2 : List String) (n1 n2 : ℕ) :
    List.filter (fun x => decide (x.index_type = tag))
        (save_index_stocks (save_index_stocks tbl tag s1 f1 n1) tag s2 f2 n2) =
      save_index_stocks [] tag s2 f2 n2 ∧
    ∀ tag2, tag2 ≠ tag →
      List.filter (fun x => decide (x.index_type = tag2))
          (save_index_stocks (save_index_stocks tbl tag s1 f1 n1) tag s2 f2 n2) =
        tbl.filter fun x => decide (x.index_type = tag2) := by
  constructor
  · unfold save_index_stocks
    rw [foldl_indexStep_filter_tag, filter_tag_clear]
    rfl
  · intro tag2 hne
    unfold save_index_stocks
    rw [foldl_indexStep_filter_other tag tag2 (fun h => hne h.symm),
      filter_other_clear tag tag2 hne,
      foldl_indexStep_filter_other tag tag2 (fun h => hne h.symm),
      filter_other_clear tag tag2 hne]

/-- Closed instance of `membership_full_replace`: replacing the `hs300`
membership twice leaves only the second set for `hs300` and leaves the
`zz500` row untouched. -/
theorem membership_full_replace_witness :
    List.filter (fun x => decide (x.index_type = "hs300"))
        (save_index_stocks (save_index_stocks
            [⟨"zz500", "sz.000001", none, none, 0, 0⟩] "hs300"
            [["sh.600000", "A"]] ["code", "code_name"] 1) "hs300"
          [["sh.601000", "B"]] ["code", "code_name"] 2) =
      save_index_stocks [] "hs300" [["sh.601000", "B"]] ["code", "code_name"] 2 ∧
    List.filter (fun x => decide (x.index_type = "zz500"))
        (save_index_stocks (save_index_stocks
            [⟨"zz500", "sz.000001", none, none, 0, 0⟩] "hs300"
            [["sh.600000", "A"]] ["code", "code_name"] 1) "hs300"
          [["sh.601000", "B"]] ["code", "code_name"] 2) =
      List.filter (fun x => decide (x.index_type = "zz500"))
        [⟨"zz500", "sz.000001", none, none, 0, 0⟩] :=
  ⟨(membership_full_replace [⟨"zz500", "sz.000001", none, none, 0, 0⟩] "hs300"
      [["sh.600000", "A"]] [["sh.601000", "B"]] ["code", "code_name"]
      ["code", "code_name"] 1 2).1,
   (membership_full_replace [⟨"zz500", "sz.000001", none, none, 0, 0⟩] "hs300"
      [["sh.600000", "A"]] [["sh.601000", "B"]] ["code", "code_name"]
      ["code", "code_name"] 1 2).2 "zz500" (by decide)⟩

/-- C8: for every table, code and optional bounds, the query returns a
sequence sorted ascending by date whose content is exactly (a permutation
of, hence same rows and multiplicities as) the stored bars of that code
with date inside the bounds; with no bounds it is exactly the code's full
history. -/
theorem query_bars_spec (tbl : List DailyRow) (code : String)
    (startD endD : Option ℕ) :
    (∀ r : DailyRow, r ∈ get_stock_daily_data_from_db tbl code startD endD ↔
        r ∈ tbl ∧ r.code = code ∧ inDateBounds startD endD r.date = true) ∧
    List.Sorted (fun a b : DailyRow => a.date ≤ b.date)
      (get_stock_daily_data_from_db tbl code startD endD) ∧
    (get_stock_daily_data_from_db tbl code startD endD).Perm
      (tbl.filter fun r => decide (r.code = code) && inDateBounds startD endD r.date) ∧
    (get_stock_daily_data_from_db tbl code none none).Perm
      (tbl.filter fun r => decide (r.code = code)) := by
  refine ⟨?_, ?_, ?_, ?_⟩
  · intro r
    unfold get_stock_daily_data_from_db
    rw [(List.perm_insertionSort _ _).mem_iff, List.mem_filter]
    simp [and_assoc]
  · exact List.sorted_insertionSort _ _
  · exact List.perm_insertionSort _ _
  · unfold get_stock_daily_data_from_db
    have h1 : (tbl.filter fun r => decide (r.code = code) && inDateBounds none none r.date) =
        tbl.filter fun r => decide (r.code = code) := by
      apply List.filter_congr
      intro x _
      simp [inDateBounds]
    rw [h1]
    exact List.perm_insertionSort _ _

/-- C6, counterexample: for a request with `sma1 = 10 >= sma2 = 5` the
handler still performs the provider fetch — the event trace of the run is
`[providerFetch]` — and only afterwards rejects with the message naming the
parameters, so the rejection does not happen before I/O. -/
theorem sma_param_check_after_fetch :
    sma_backtest (some 10) (some 5) none
        (Except.ok [1, 2, 3, 4, 5, 6, 7, 8, 9, 10]) =
      ([HandlerEv.providerFetch], HandlerResp.paramError 10 5) := by
  decide

/-- C6 (amended): a request with `sma1 >= sma2` whose fetched data passes
the presence and 10-row checks is rejected with a 400 naming `sma1` and
`sma2`, and the backtest is never run for such a request whatever the
fetch outcome; the rejection however happens after the provider fetch of
bar data, not before I/O. -/
theorem sma_param_rejection (s1 s2 : ℕ) (hd? : Option ℕ) (hs : s2 ≤ s1) :
    (∀ data : List ℚ, 10 ≤ data.length →
      sma_backtest (some s1) (some s2) hd? (Except.ok data) =
        ([HandlerEv.providerFetch], HandlerResp.paramError s1 s2)) ∧
    ∀ fetched, HandlerEv.runBacktest ∉
      (sma_backtest (some s1) (some s2) hd? fetched).1 := by
  constructor
  · intro data hlen
    have h0 : ¬(data.length = 0) := by omega
    have h10 : ¬(data.length < 10) := by omega
    simp [sma_backtest, h0, h10, hs]
  · intro fetched
    cases fetched with
    | error e => simp [sma_backtest]
    | ok data =>
      by_cases h0 : data.length = 0
      · simp [sma_backtest, h0]
      · by_cases h10 : data.length < 10
        · simp [sma_backtest, h0, h10]
        · simp [sma_backtest, h0, h10, hs]

/-- Closed instance of `sma_param_rejection` at `sma1 = 10, sma2 = 5`. -/
theorem sma_param_rejection_witness :
    sma_backtest (some 10) (some 5) none
        (Except.ok [1, 2, 3, 4, 5, 6, 7, 8, 9, 10]) =
      ([HandlerEv.providerFetch], HandlerResp.paramError 10 5) ∧
    HandlerEv.runBacktest ∉
      (sma_backtest (some 10) (some 5) none (Except.error ())).1 :=
  ⟨(sma_param_rejection 10 5 none (by decide)).1
      [1, 2, 3, 4, 5, 6, 7, 8, 9, 10] (by decide),
   (sma_param_rejection 10 5 none (by decide)).2 (Except.error ())⟩

/-- C7: each entry signal found in the series opens at that row's close and
exits `holdDays` rows later, clamped to the last available row, the trade
still counted; on closes `[100, 105]` with entry at row 0 and one hold row
the aggregate is `avgProfit = 5`, `avgProfitRatio = 0.05`,
`winProbability = 1`, `tradeCount = 1`; and zero trades give the reported
insufficient-data condition `none`, not a zero value. -/
theorem backtest_contract :
    (∀ (closes : List ℚ) (t holdDays : ℕ) (entry : ℚ),
      closes.get? t = some entry →
      backtestTrades closes [t] holdDays =
        [(entry, closes.getD (min (t + holdDays) (closes.length - 1)) 0)]) ∧
    runBacktest [100, 105] [0] 1 =
      some { avgProfit := 5, avgProfitRatio := 1/20,
             winProbability := 1, tradeCount := 1 } ∧
    (∀ (closes : List ℚ) (entries : List ℕ) (holdDays : ℕ),
      backtestTrades closes entries holdDays = [] →
      runBacktest closes entries holdDays = none) := by
  refine ⟨?_, by decide, ?_⟩
  · intro closes t holdDays entry hentry
    have ht : t < closes.length := by
      by_contra hcon
      rw [List.get?_eq_none.mpr (by omega)] at hentry
      cases hentry
    cases hx : closes.get? (min (t + holdDays) (closes.length - 1)) with
    | none =>
      exfalso
      rw [List.get?_eq_none] at hx
      omega
    | some v =>
      rw [List.get?_eq_getElem?] at hentry hx
      simp [backtestTrades, List.get?_eq_getElem?, hentry, hx]
  · intro closes entries holdDays hempty
    simp [runBacktest, hempty]

/-- Closed instance of `backtest_contract`: the single trade of the spec's
example series, and the insufficient-data outcome for an entry signal
outside the series. -/
theorem backtest_contract_witness :
    backtestTrades [100, 105] [0] 1 = [(100, 105)] ∧
    runBacktest [100, 105] [5] 3 = none :=
  ⟨(backtest_contract.1 [100, 105] 0 1 100 (by decide)).trans (by decide),
   backtest_contract.2.2 [100, 105] [5] 3 (by decide)⟩

theorem runIter_sleep_cancelled (env : IterEnv)
    (hc : env.sleepTrigger = SleepOut.cancelled) :
    runIter env = ([], IterEnd.brk) := by
  unfold runIter
  rw [hc]

theorem daily_refresh_task_cons_next (env : IterEnv) (rest : List IterEnv)
    (h : (runIter env).2 = IterEnd.nextIter) :
    daily_refresh_task (env :: rest) =
      ((runIter env).1 ++ (daily_refresh_task rest).1,
        (daily_refresh_task rest).2) := by
  cases hr : runIter env with
  | mk evs en =>
    rw [hr] at h
    simp only at h
    subst h
    simp [daily_refresh_task, hr]

theorem daily_refresh_task_cons_brk (env : IterEnv) (rest : List IterEnv)
    (h : (runIter env).2 = IterEnd.brk) :
    daily_refresh_task (env :: rest) =
      ((runIter env).1, LoopEnd.exited IterEnd.brk) := by
  cases hr : runIter env with
  | mk evs en =>
    rw [hr] at h
    simp only at h
    subst h
    simp [daily_refresh_task, hr]

/-- C9: if every earlier iteration ran through to the next one and
cancellation arrives during the sleep-until-trigger phase of an iteration,
the loop exits through its `except CancelledError: break` handler — it does
not raise out of its own body — and neither that iteration nor any later
environment initiates a membership or bar fetch: the loop's fetch trace is
exactly that of the completed earlier iterations. -/
theorem refresh_cancel_in_sleep (pre : List IterEnv) (env : IterEnv)
    (rest : List IterEnv) (hc : env.sleepTrigger = SleepOut.cancelled)
    (hpre : ∀ e ∈ pre, (runIter e).2 = IterEnd.nextIter) :
    daily_refresh_task (pre ++ env :: rest) =
      ((pre.map (fun e => (runIter e).1)).flatten,
        LoopEnd.exited IterEnd.brk) := by
  induction pre with
  | nil =>
    rw [List.nil_append,
      daily_refresh_task_cons_brk env rest (by rw [runIter_sleep_cancelled env hc]),
      runIter_sleep_cancelled env hc]
    simp
  | cons e es ih =>
    rw [List.cons_append,
      daily_refresh_task_cons_next e (es ++ env :: rest) (hpre e (by simp)),
      ih (fun x hx => hpre x (by simp [hx]))]
    simp

/-- Closed instance of `refresh_cancel_in_sleep`: one completed refresh
iteration, then cancellation during the sleep phase; the loop breaks and
only the first iteration's two fetches ever ran. -/
theorem refresh_cancel_in_sleep_witness :
    daily_refresh_task
        [⟨SleepOut.completed, FetchOut.ok, FetchOut.ok, SleepOut.completed⟩,
         ⟨SleepOut.cancelled, FetchOut.ok, FetchOut.ok, SleepOut.completed⟩] =
      ([FetchEv.membership, FetchEv.bars], LoopEnd.exited IterEnd.brk) :=
  (refresh_cancel_in_sleep
      [⟨SleepOut.completed, FetchOut.ok, FetchOut.ok, SleepOut.completed⟩]
      ⟨SleepOut.cancelled, FetchOut.ok, FetchOut.ok, SleepOut.completed⟩
      [] rfl (by decide)).trans (by decide)

theorem macdFold_main_board (strat : List ℚ → ℚ × ℚ × ℚ)
    (getData : String → List ℚ) :
    ∀ (flagged : List (String × String))
      (acc res : List (String × String × ℚ × ℚ × ℚ)),
      (∀ entry ∈ acc, is_main_board entry.1 = some true) →
      List.foldlM (macdBacktestStep strat getData) acc flagged = some res →
      ∀ entry ∈ res, is_main_board entry.1 = some true := by
  intro flagged
  induction flagged with
  | nil =>
    intro acc res hacc hres
    simp only [List.foldlM] at hres
    cases hres
    exact hacc
  | cons s ss ih =>
    intro acc res hacc hres
    rw [List.foldlM_cons] at hres
    cases hstep : macdBacktestStep strat getData acc s with
    | none =>
      rw [hstep] at hres
      cases hres
    | some acc2 =>
      rw [hstep] at hres
      simp only [Option.bind_eq_bind, Option.some_bind] at hres
      refine ih acc2 res ?_ hres
      unfold macdBacktestStep at hstep
      cases hmb : is_main_board s.1 with
      | none => rw [hmb] at hstep; cases hstep
      | some b =>
        cases b with
        | false =>
          rw [hmb] at hstep
          simp only at hstep
          cases hstep
          exact hacc
        | true =>
          rw [hmb] at hstep
          simp only at hstep
          by_cases h0 : (getData s.1).length = 0
          · rw [if_pos h0] at hstep
            cases hstep
            exact hacc
          · rw [if_neg h0] at hstep
            by_cases hthr : 2 / 100 ≤ (strat (getData s.1)).2.1 ∧
                1 / 2 ≤ (strat (getData s.1)).2.2
            · rw [if_pos hthr] at hstep
              cases hstep
              intro entry hentry
              rcases List.mem_append.mp hentry with hmem | hmem
              · exact hacc entry hmem
              · rcases List.mem_singleton.mp hmem with rfl
                exact hmb
            · rw [if_neg hthr] at hstep
              cases hstep
              exact hacc

/-- C10: the MACD search's backtest stage skips every flagged instrument
whose code is not a Shanghai or Shenzhen main-board code — the step leaves
the accumulator unchanged for every backtest and every data source, so no
backtest runs for it — and every tuple of the stage's result list carries a
main-board code; the SMA search's stage applies no such filter: a passing
instrument is kept whatever its board. -/
theorem macd_main_board_filter :
    (∀ (strat : List ℚ → ℚ × ℚ × ℚ) (getData : String → List ℚ)
        (acc : List (String × String × ℚ × ℚ × ℚ)) (stock : String × String),
      is_main_board stock.1 = some false →
      macdBacktestStep strat getData acc stock = some acc) ∧
    (∀ (strat : List ℚ → ℚ × ℚ × ℚ) (getData : String → List ℚ)
        (flagged : List (String × String))
        (res : List (String × String × ℚ × ℚ × ℚ)),
      macdBacktestStage strat getData flagged = some res →
      ∀ entry ∈ res, is_main_board entry.1 = some true) ∧
    (∀ (strat : List ℚ → ℚ × ℚ × ℚ) (getData : String → List ℚ)
        (acc : List (String × String × ℚ × ℚ × ℚ)) (stock : String × String),
      (getData stock.1).length ≠ 0 →
      2 / 100 ≤ (strat (getData stock.1)).2.1 →
      1 / 2 ≤ (strat (getData stock.1)).2.2 →
      smaBacktestStep strat getData acc stock =
        acc ++ [(stock.1, stock.2, strat (getData stock.1))]) := by
  refine ⟨?_, ?_, ?_⟩
  · intro strat getData acc stock h
    unfold macdBacktestStep
    rw [h]
  · intro strat getData flagged res hres
    exact macdFold_main_board strat getData flagged [] res (by simp) hres
  · intro strat getData acc stock h0 h1 h2
    unfold smaBacktestStep
    rw [if_neg h0, if_pos ⟨h1, h2⟩]

/-- Closed instance of `macd_main_board_filter`: the ChiNext code
`sz.300001` is skipped by the MACD stage and excluded from its result, but
kept by the SMA stage when its backtest passes the thresholds. -/
theorem macd_main_board_filter_witness :
    macdBacktestStep (fun _ => (0, 0, 0)) (fun _ => [1]) [] ("sz.300001", "X") =
      some [] ∧
    (∀ entry ∈ ([] : List (String × String × ℚ × ℚ × ℚ)),
      is_main_board entry.1 = some true) ∧
    smaBacktestStep (fun _ => (5, 1/10, 1)) (fun _ => [1]) [] ("sz.300001", "X") =
      [] ++ [("sz.300001", "X", (5, 1/10, 1))] :=
  ⟨macd_main_board_filter.1 (fun _ => (0, 0, 0)) (fun _ => [1]) []
      ("sz.300001", "X") (by decide),
   macd_main_board_filter.2.1 (fun _ => (0, 0, 0)) (fun _ => [1])
      [("sz.300001", "X")] [] (by decide),
   macd_main_board_filter.2.2 (fun _ => (5, 1/10, 1)) (fun _ => [1]) []
      ("sz.300001", "X") (by decide) (by decide) (by decide)⟩
